import Mathlib

/-!
Shallow embedding of the dialogue-simulation and evaluation pipeline
(`dialogue.py`, `eval.py`, `simulate.py`, `argubots.py`), with theorems
settling the specification claims about it.

Python dicts/Counters are modelled as association lists of key/value
pairs; machine interaction (the LLM transport, the Kialo claims corpus)
is modelled as oracle parameters, matching the spec's treatment of those
boundaries as external collaborators.  Python exceptions are modelled
with `Except`.
-/

namespace NlpHw7

/-! ## Dialogue (dialogue.py)

A turn is a dict with the two keys `speaker` and `content`.  `Turn.getKey`
models Python dict subscripting `turn[k]` (a missing key raises KeyError,
modelled by `none`). -/

structure Turn where
  speaker : String
  content : String
deriving Repr, DecidableEq

/-- Python `turn[k]` on a turn dict, which holds exactly the keys
`speaker` and `content`. -/
def Turn.getKey (t : Turn) (k : String) : Option String :=
  if k = "speaker" then some t.speaker
  else if k = "content" then some t.content
  else none

/-- A `Dialogue` is an immutable sequence of turns. -/
abbrev Dialogue := List Turn

/-- `Dialogue.add`: non-destructively append a turn (dialogue.py line 33). -/
def Dialogue.addTurn (d : Dialogue) (speaker content : String) : Dialogue :=
  d ++ [⟨speaker, content⟩]

/-- The multiset of speakers of a dialogue, `{turn['speaker'] for turn in d}`
before deduplication. -/
def speakersOf (d : Dialogue) : List String :=
  d.map (fun t => t.speaker)

/-! ## Message formatter (dialogue.py `format_as_messages`) -/

/-- An OpenAI chat message: a dict with `role` and `content` keys, plus an
optional `name` key (set only on tool messages). -/
structure Msg where
  role : String
  content : String
  name : Option String := none
deriving Repr, DecidableEq

/-- The triple-quote wrapper `f'\x22\x22\x22\n{compressed}\n\x22\x22\x22'`
used by the compression pass. -/
def wrapTriple (s : String) : String :=
  "\"\"\"\n" ++ s ++ "\n\"\"\""

/-- One left-to-right pass over the assembled messages.  The state `acc`
holds the `\n\n`-joined contents of the currently open run of consecutive
user messages (`none` when no run is open).  This is the functional
reading of the in-place splice loop at dialogue.py lines 126-139: each
maximal run of consecutive `user` messages is replaced by a single
wrapped `user` message, and every other message is passed through. -/
def compressAux (acc : Option String) : List Msg → List Msg
  | [] =>
    match acc with
    | none => []
    | some s => [{ role := "user", content := wrapTriple s }]
  | m :: rest =>
    match acc with
    | none =>
      if m.role = "user" then compressAux (some m.content) rest
      else m :: compressAux none rest
    | some s =>
      if m.role = "user" then compressAux (some (s ++ "\n\n" ++ m.content)) rest
      else { role := "user", content := wrapTriple s } :: m :: compressAux none rest

/-- The compression pass of `format_as_messages`. -/
def compressRun (ms : List Msg) : List Msg :=
  compressAux none ms

/-- `format_as_messages` (dialogue.py lines 66-141).  Returns
`Except.error` when the Python code would raise (it reads `turn['role']`
from turn dicts that have no `role` key whenever speaker names are
marked). -/
def format_as_messages (d : Dialogue) (speaker : String)
    (system system_last : Option String)
    (speaker_names compress : Option Bool)
    (tool tool_name : Option String) : Except String (List Msg) := do
  let speakers := ((speakersOf d) ++ [speaker]).dedup
  let sn := speaker_names.getD (speakers.length > 2)
  let cp := compress.getD (speakers.length > 2)
  let turnMsgs ← d.mapM (fun t =>
    if sn then
      match t.getKey "role" with
      | some r => Except.ok ({ role := if t.speaker = speaker then "assistant" else "user",
                               content := r ++ ": " ++ t.content } : Msg)
      | none => Except.error "KeyError: role"
    else
      Except.ok ({ role := if t.speaker = speaker then "assistant" else "user",
                   content := t.content } : Msg))
  let msgs := (match system with
    | some s => [({ role := "system", content := s } : Msg)]
    | none => []) ++ turnMsgs
  let msgs := msgs ++ (match system_last with
    | some s => [({ role := "system", content := s } : Msg)]
    | none => [])
  let msgs := msgs ++ (match tool with
    | some t => [({ role := "tool", content := t, name := tool_name } : Msg)]
    | none => [])
  return if cp then compressRun msgs else msgs

/-! ## Eval (eval.py)

`Counter[str]` is modelled as an association list of `(key, value)` pairs:
`clookup` is dict lookup with default 0, `ckeys` the key set.  Python's
`Counter.__add__` keeps only keys whose summed count is strictly positive,
which `counterAdd` reproduces. -/

abbrev Counter := List (String × Int)

/-- Dict lookup in a counter, defaulting to 0 for absent keys. -/
def clookup (c : Counter) (k : String) : Int :=
  ((c.find? (fun p => p.1 = k)).map Prod.snd).getD 0

/-- The keys of a counter (deduplicated). -/
def ckeys (c : Counter) : List String :=
  (c.map Prod.fst).dedup

/-- `Counter.__add__`: per-key sum over the union of the key sets, keeping
only the keys whose sum is strictly positive (CPython drops counts `<= 0`). -/
def counterAdd (a b : Counter) : Counter :=
  ((ckeys a ++ ckeys b).dedup).filterMap (fun k =>
    let v := clookup a k + clookup b k
    if 0 < v then some (k, v) else none)

/-- `set(a.keys()) == set(b.keys())`, as the Python constructor checks it. -/
def sameKeySet (a b : Counter) : Bool :=
  (ckeys a).all (fun k => (ckeys b).contains k) &&
    (ckeys b).all (fun k => (ckeys a).contains k)

/-- The comments field: a dict from question key to a list of
(evaluator, comment) pairs. -/
abbrev CommentsMap := List (String × List (String × String))

/-- Dict lookup in a comments map, defaulting to the empty list
(`defaultdict(list)` semantics). -/
def clookupL (c : CommentsMap) (k : String) : List (String × String) :=
  ((c.find? (fun p => p.1 = k)).map Prod.snd).getD []

/-- The keys of a comments map (deduplicated). -/
def commentKeys (c : CommentsMap) : List String :=
  (c.map Prod.fst).dedup

/-- Merging two comments maps: per key, the left list followed by the right
list, over the union of the key sets.  This is the mapping produced both by
`Eval.__add__` (chained iteration into a fresh defaultdict) and by
`Eval.__iadd__` (destructive per-key append). -/
def commentsMerge (a b : CommentsMap) : CommentsMap :=
  ((commentKeys a ++ commentKeys b).dedup).map (fun k => (k, clookupL a k ++ clookupL b k))

/-- Aggregated evaluation results (eval.py lines 31-94). -/
structure Eval where
  comments : CommentsMap
  scores : Counter
  denoms : Counter
deriving Repr, DecidableEq

/-- `Eval.__init__` (eval.py lines 44-60).  `scores = none` models the
`scores=None` default (an empty Counter); `denoms = none` models
`denoms=None`, in which case every score key gets denominator 1.  Raises
ValueError (the spec's KeyMismatch) when the key sets of scores and denoms
differ. -/
def Eval.make (comments : CommentsMap) (scores : Option Counter)
    (denoms : Option Counter) : Except String Eval :=
  let scoresC : Counter := scores.getD []
  let denomsC : Counter :=
    match denoms with
    | none => (ckeys scoresC).map (fun k => (k, 1))
    | some dn => dn
  if sameKeySet scoresC denomsC then Except.ok ⟨comments, scoresC, denomsC⟩
  else Except.error "KeyMismatch"

/-- `Eval.__add__` (eval.py lines 86-94): merge comments, sum the score and
denom counters, and construct a fresh Eval (which re-runs the constructor's
key-set check and can therefore raise). -/
def Eval.add (e1 e2 : Eval) : Except String Eval :=
  Eval.make (commentsMerge e1.comments e2.comments)
    (some (counterAdd e1.scores e2.scores))
    (some (counterAdd e1.denoms e2.denoms))

/-- `Eval.__iadd__` (eval.py lines 77-84): the in-place `+=`, which updates
the three fields directly and performs no key-set check. -/
def Eval.iadd (e1 e2 : Eval) : Eval :=
  { comments := commentsMerge e1.comments e2.comments
    scores := counterAdd e1.scores e2.scores
    denoms := counterAdd e1.denoms e2.denoms }

/-- Dict lookup in the rational-valued mapping returned by `mean`. -/
def rlookup (m : List (String × Rat)) (k : String) : Rat :=
  ((m.find? (fun p => p.1 = k)).map Prod.snd).getD 0

/-- `Eval.mean` (eval.py lines 62-65): per score key the ratio
`scores[k]/denoms[k]` (ZeroDivisionError when some denominator is zero),
then `m['TOTAL'] = sum(m.values())` — an overwrite when a criterion is
itself named TOTAL, an append otherwise. -/
def Eval.mean (e : Eval) : Except String (List (String × Rat)) :=
  if (ckeys e.scores).all (fun k => clookup e.denoms k ≠ 0) then
    let m : List (String × Rat) :=
      (ckeys e.scores).map (fun k =>
        (k, (clookup e.scores k : Rat) / (clookup e.denoms k : Rat)))
    let total : Rat := (m.map Prod.snd).sum
    if (ckeys e.scores).contains "TOTAL" then
      Except.ok (m.map (fun p => if p.1 = "TOTAL" then ("TOTAL", total) else p))
    else
      Except.ok (m ++ [("TOTAL", total)])
  else Except.error "ZeroDivisionError"

/-- The precondition guard of `eval_by_participant` (eval.py lines 112-115):
raises ValueError (the spec's PreconditionError) unless both the
participant's name and the other name occur among the dialogue's speakers. -/
def eval_by_participant_guard (name other : String) (d : Dialogue) :
    Except String Unit :=
  if name ∈ speakersOf d ∧ other ∈ speakersOf d then Except.ok ()
  else Except.error "ValueError: did not both participate"

/-! ## Simulator (simulate.py) -/

/-- Python exception kinds relevant to the simulator and argubots. -/
inductive PyErr where
  | indexError
  | assertionError
deriving Repr, DecidableEq

/-- An agent as the simulator sees it.  `starters = none` models the
`conversation_starters` attribute being absent (attribute access raises
AttributeError).

`reply` is modelled from the spec: agents.py is not under src/; spec
section 4.3 gives the capability `reply_content(dialogue) -> string`. -/
structure SimAgent where
  name : String
  starters : Option (List String)
  reply : Dialogue → String

/-- Modelled from the spec: spec section 4.3 defines
`respond(dialogue) -> Dialogue` as "returns dialogue + own new turn
appended" (agents.py is not under src/). -/
def SimAgent.respond (a : SimAgent) (d : Dialogue) : Dialogue :=
  d.addTurn a.name (a.reply d)

/-- The `while turns > 0` loop of simulate.py lines 28-31: the current
first agent responds, the budget decrements, roles swap. -/
def simLoop : Nat → SimAgent → SimAgent → Dialogue → Dialogue
  | 0, _, _, d => d
  | Nat.succ k, a, b, d => simLoop k b a (a.respond d)

/-- `simulated_dialogue` (simulate.py lines 5-32).  `pick` models the
random draw of `random.choice`: the drawn index is always reduced modulo
the list length, as any concrete execution's index is.  The starter block
is wrapped in `except (AttributeError, TypeError, ValueError)`: an absent
`conversation_starters` attribute (starters = none) raises AttributeError
and is silently skipped, but `random.choice` on an empty list raises
IndexError, which that clause does not catch, so it propagates. -/
def simulated_dialogue (pick : Nat) (a b : SimAgent) (turns : Int)
    (pre : Dialogue) (starter : Bool) : Except PyErr Dialogue :=
  let afterStarter : Except PyErr (Dialogue × SimAgent × SimAgent × Int) :=
    if starter then
      match b.starters with
      | none => Except.ok (pre, a, b, turns)
      | some l =>
        if l.isEmpty then Except.error PyErr.indexError
        else Except.ok
          (pre.addTurn a.name (l.getD (pick % l.length) ""), b, a, turns - 1)
    else Except.ok (pre, a, b, turns)
  match afterStarter with
  | Except.error e => Except.error e
  | Except.ok (d, a1, b1, t) => Except.ok (simLoop t.toNat a1 b1 d)

/-! ## Argubots (argubots.py)

The Kialo claims database is an external collaborator (kialo.py is not part
of the core; the spec treats it as a black-box nearest-neighbor service,
section 6), so it is modelled as a record of oracle functions. -/

/-- The nearest-neighbor-claims service boundary:
`closestClaims query n kind threshold` returns the candidate claims
(`threshold = none` is the no-threshold query); `cons`/`pros` are the
counterargument/supporting-argument lookup tables; `randomChain` is the
chain drawn by `random_chain()`. -/
structure Kialo where
  closestClaims : String → Nat → String → Option Nat → List String
  cons : String → List String
  pros : String → List String
  randomChain : List String

/-- `KialoAgent.response` (argubots.py lines 50-67).  `pick1` and `pick2`
model the two `random.choice` draws.  On a non-empty dialogue it queries
the top-3 claims with recorded cons for the previous turn's content,
asserts the candidate set non-empty, and answers with a random con of a
random candidate. -/
def kialoAgentResponse (pick1 pick2 : Nat) (k : Kialo) (d : Dialogue) :
    Except PyErr String :=
  if d.isEmpty then
    match k.randomChain.head? with
    | some c => Except.ok c
    | none => Except.error PyErr.indexError
  else
    let previous_turn := ((d.getLast?).map (fun t => t.content)).getD ""
    let neighbors := k.closestClaims previous_turn 3 "has_cons" none
    if neighbors.isEmpty then Except.error PyErr.assertionError
    else
      let neighbor := neighbors.getD (pick1 % neighbors.length) ""
      let cs := k.cons neighbor
      if cs.isEmpty then Except.error PyErr.indexError
      else Except.ok (cs.getD (pick2 % cs.length) "")

/-- Python string repetition `s * n`. -/
def strRepeat (s : String) (n : Nat) : String :=
  String.join (List.replicate n s)

/-- The recency-weighted query built from the turns of the speakers other
than the bot: `" ".join(d[i]['content']*(i+1) for i in range(len(d)) if
d[i]['speaker'] != name)` (argubots.py lines 101-102). -/
def akikiUserQuery (name : String) (d : Dialogue) : String :=
  String.intercalate " "
    ((d.enum.filter (fun p => p.2.speaker ≠ name)).map
      (fun p => strRepeat p.2.content (p.1 + 1)))

/-- The recency-weighted query built from the bot's own turns
(argubots.py lines 104-105). -/
def akikiBotQuery (name : String) (d : Dialogue) : String :=
  String.intercalate " "
    ((d.enum.filter (fun p => p.2.speaker = name)).map
      (fun p => strRepeat p.2.content (p.1 + 1)))

/-- The candidate-set fallback chain of `AkikiAgent.response`
(argubots.py lines 107-112): user turns with threshold 8; if empty and the
dialogue has more than one turn, bot turns with threshold 8; if still
empty, user turns with no threshold. -/
def akikiNeighbors (name : String) (k : Kialo) (d : Dialogue) : List String :=
  let n1 := k.closestClaims (akikiUserQuery name d) 3 "has_cons" (some 8)
  let n2 := if n1.length = 0 ∧ d.length > 1 then
      k.closestClaims (akikiBotQuery name d) 3 "has_pros" (some 8)
    else n1
  if n2.length = 0 then
    k.closestClaims (akikiUserQuery name d) 3 "has_cons" none
  else n2

/-- `AkikiAgent.response` (argubots.py lines 87-120).  After the fallback
chain, `random.choice(neighbors)` raises IndexError when the candidate set
is still empty; the response is a random element of
`cons[neighbor] or pros[neighbor]` (cons if non-empty, else pros), with
IndexError again when both are empty. -/
def akikiAgentResponse (pick1 pick2 : Nat) (name : String) (k : Kialo)
    (d : Dialogue) : Except PyErr String :=
  if d.isEmpty then
    match k.randomChain.head? with
    | some c => Except.ok c
    | none => Except.error PyErr.indexError
  else
    let neighbors := akikiNeighbors name k d
    if neighbors.isEmpty then Except.error PyErr.indexError
    else
      let neighbor := neighbors.getD (pick1 % neighbors.length) ""
      let cs := if (k.cons neighbor).isEmpty then k.pros neighbor
        else k.cons neighbor
      if cs.isEmpty then Except.error PyErr.indexError
      else Except.ok (cs.getD (pick2 % cs.length) "")

/-! ## Derived predicates used by the claim statements -/

/-- All stored counts are strictly positive (true of every `Counter` the
rating pipeline builds, since ratings are in 1..5 or 1..10). -/
def cPos (c : Counter) : Prop := ∀ k ∈ ckeys c, 0 < clookup c k

/-- Two counters represent the identical mapping: the same key set and the
same value at every key. -/
def counterMapEq (a b : Counter) : Prop :=
  (∀ k, k ∈ ckeys a ↔ k ∈ ckeys b) ∧ ∀ k, clookup a k = clookup b k

/-- The well-formedness an `Eval` gets from the rating pipeline: strictly
positive stored scores and denominators, and the constructor-checked
invariant that the two key sets agree. -/
def EvalWF (e : Eval) : Prop :=
  cPos e.scores ∧ cPos e.denoms ∧ sameKeySet e.scores e.denoms = true

instance cPos.decidable (c : Counter) : Decidable (cPos c) :=
  inferInstanceAs (Decidable (∀ k ∈ ckeys c, 0 < clookup c k))

instance EvalWF.decidable (e : Eval) : Decidable (EvalWF e) :=
  inferInstanceAs (Decidable (cPos e.scores ∧ cPos e.denoms ∧
    sameKeySet e.scores e.denoms = true))

/-- No two adjacent messages both have the `user` role, i.e. every maximal
run of consecutive user messages has length one. -/
def noConsecUsers : List Msg → Bool
  | [] => true
  | [_] => true
  | a :: b :: rest =>
    (!(a.role == "user" && b.role == "user")) && noConsecUsers (b :: rest)

/-! ## Counter lemmas -/

/-- Looking up an association list built over a key list with per-key
values: the result is determined by membership of the key and the
condition. -/
theorem find?_filterMap_keys {β : Type} (ks : List String) (c : String → Prop)
    [DecidablePred c] (v : String → β) (k : String) :
    ((ks.filterMap (fun x => if c x then some (x, v x) else none)).find?
        (fun p => p.1 = k)) =
      if k ∈ ks ∧ c k then some (k, v k) else none := by
  induction ks with
  | nil => simp
  | cons x ks ih =>
    rw [List.filterMap_cons]
    by_cases hk : x = k
    · subst hk
      by_cases hc : c x
      · rw [if_pos hc, List.find?_cons_of_pos _ (by simp)]
        simp [hc]
      · rw [if_neg hc, ih, if_neg (fun h => hc h.2),
          if_neg (fun h => hc h.2)]
    · have hiff : (k ∈ x :: ks ∧ c k) ↔ (k ∈ ks ∧ c k) := by
        rw [List.mem_cons]
        constructor
        · rintro ⟨hm | hm, hck⟩
          · exact absurd hm.symm hk
          · exact ⟨hm, hck⟩
        · rintro ⟨hm, hck⟩
          exact ⟨Or.inr hm, hck⟩
      by_cases hc : c x
      · rw [if_pos hc, List.find?_cons_of_neg _ (by simp [hk]), ih]
        exact (if_congr hiff rfl rfl).symm
      · rw [if_neg hc, ih]
        exact (if_congr hiff rfl rfl).symm

/-- Same, for a plain `map` over the key list. -/
theorem find?_map_keys {β : Type} (ks : List String) (v : String → β)
    (k : String) :
    ((ks.map (fun x => (x, v x))).find? (fun p => p.1 = k)) =
      if k ∈ ks then some (k, v k) else none := by
  induction ks with
  | nil => simp
  | cons x ks ih =>
    by_cases hk : x = k
    · subst hk
      rw [List.map_cons, List.find?_cons_of_pos _ (by simp)]
      simp
    · rw [List.map_cons, List.find?_cons_of_neg _ (by simp [hk]), ih]
      have hiff : (k ∈ x :: ks) ↔ (k ∈ ks) := by
        rw [List.mem_cons]
        constructor
        · rintro (hm | hm)
          · exact absurd hm.symm hk
          · exact hm
        · exact Or.inr
      exact (if_congr hiff rfl rfl).symm

theorem mem_ckeys_iff {c : Counter} {k : String} :
    k ∈ ckeys c ↔ ∃ p ∈ c, p.1 = k := by
  simp [ckeys, List.mem_dedup, List.mem_map]

theorem clookup_eq_zero_of_not_mem {c : Counter} {k : String}
    (h : k ∉ ckeys c) : clookup c k = 0 := by
  have hnone : c.find? (fun p => p.1 = k) = none := by
    rw [List.find?_eq_none]
    intro p hp
    simp only [decide_eq_true_eq]
    intro hpk
    exact h (mem_ckeys_iff.mpr ⟨p, hp, hpk⟩)
  simp [clookup, hnone]

theorem mem_ckeys_of_clookup_ne_zero {c : Counter} {k : String}
    (h : clookup c k ≠ 0) : k ∈ ckeys c := by
  by_contra hmem
  exact h (clookup_eq_zero_of_not_mem hmem)

/-- Pointwise characterization of Python `Counter` addition: the sum when
it is positive, and 0 (i.e. absence) otherwise. -/
theorem clookup_counterAdd (a b : Counter) (k : String) :
    clookup (counterAdd a b) k =
      if 0 < clookup a k + clookup b k then clookup a k + clookup b k
      else 0 := by
  have hfind := find?_filterMap_keys ((ckeys a ++ ckeys b).dedup)
    (fun x => 0 < clookup a x + clookup b x)
    (fun x => clookup a x + clookup b x) k
  by_cases hpos : 0 < clookup a k + clookup b k
  · have hmem : k ∈ (ckeys a ++ ckeys b).dedup := by
      rw [List.mem_dedup, List.mem_append]
      by_cases ha : clookup a k = 0
      · right
        apply mem_ckeys_of_clookup_ne_zero
        omega
      · exact Or.inl (mem_ckeys_of_clookup_ne_zero ha)
    rw [clookup, counterAdd, hfind, if_pos ⟨hmem, hpos⟩]
    simp [hpos]
  · rw [clookup, counterAdd, hfind, if_neg (by tauto)]
    simp [hpos]

/-- A key is present in a `Counter` sum exactly when its summed count is
positive. -/
theorem mem_ckeys_counterAdd {a b : Counter} {k : String} :
    k ∈ ckeys (counterAdd a b) ↔ 0 < clookup a k + clookup b k := by
  constructor
  · intro h
    rcases mem_ckeys_iff.mp h with ⟨p, hp, hpk⟩
    rcases List.mem_filterMap.mp hp with ⟨x, hx, hfx⟩
    by_cases hc : 0 < clookup a x + clookup b x
    · rw [if_pos hc] at hfx
      have : x = k := by
        have := Option.some.inj hfx
        rw [← hpk, ← this]
      rwa [this] at hc
    · rw [if_neg hc] at hfx
      exact absurd hfx (by simp)
  · intro hpos
    apply mem_ckeys_of_clookup_ne_zero
    rw [clookup_counterAdd, if_pos hpos]
    omega

theorem clookup_nonneg_of_cPos {c : Counter} (h : cPos c) (k : String) :
    0 ≤ clookup c k := by
  by_cases hm : k ∈ ckeys c
  · exact le_of_lt (h k hm)
  · rw [clookup_eq_zero_of_not_mem hm]

/-- On positive counters, Python `Counter` addition is plain pointwise
addition. -/
theorem clookup_counterAdd_of_cPos {a b : Counter} (ha : cPos a)
    (hb : cPos b) (k : String) :
    clookup (counterAdd a b) k = clookup a k + clookup b k := by
  rw [clookup_counterAdd]
  by_cases hpos : 0 < clookup a k + clookup b k
  · rw [if_pos hpos]
  · rw [if_neg hpos]
    have h1 := clookup_nonneg_of_cPos ha k
    have h2 := clookup_nonneg_of_cPos hb k
    omega

theorem cPos_counterAdd {a b : Counter} (ha : cPos a) (hb : cPos b) :
    cPos (counterAdd a b) := by
  intro k hk
  rw [clookup_counterAdd_of_cPos ha hb]
  exact mem_ckeys_counterAdd.mp hk

theorem mem_ckeys_counterAdd_of_cPos {a b : Counter} (ha : cPos a)
    (hb : cPos b) {k : String} :
    k ∈ ckeys (counterAdd a b) ↔ k ∈ ckeys a ∨ k ∈ ckeys b := by
  rw [mem_ckeys_counterAdd]
  constructor
  · intro hpos
    by_cases hma : k ∈ ckeys a
    · exact Or.inl hma
    · right
      apply mem_ckeys_of_clookup_ne_zero
      rw [clookup_eq_zero_of_not_mem hma] at hpos
      omega
  · intro hmem
    have h1 := clookup_nonneg_of_cPos ha k
    have h2 := clookup_nonneg_of_cPos hb k
    rcases hmem with hma | hmb
    · have := ha k hma
      omega
    · have := hb k hmb
      omega

/-! ## Comments-map and key-set lemmas -/

theorem mem_commentKeys_iff {c : CommentsMap} {k : String} :
    k ∈ commentKeys c ↔ ∃ p ∈ c, p.1 = k := by
  simp [commentKeys, List.mem_dedup, List.mem_map]

theorem clookupL_eq_nil_of_not_mem {c : CommentsMap} {k : String}
    (h : k ∉ commentKeys c) : clookupL c k = [] := by
  have hnone : c.find? (fun p => p.1 = k) = none := by
    rw [List.find?_eq_none]
    intro p hp
    simp only [decide_eq_true_eq]
    intro hpk
    exact h (mem_commentKeys_iff.mpr ⟨p, hp, hpk⟩)
  simp [clookupL, hnone]

/-- Per-key characterization of comments merging: the left list followed
by the right list. -/
theorem clookupL_commentsMerge (a b : CommentsMap) (k : String) :
    clookupL (commentsMerge a b) k = clookupL a k ++ clookupL b k := by
  have hfind := find?_map_keys ((commentKeys a ++ commentKeys b).dedup)
    (fun x => clookupL a x ++ clookupL b x) k
  by_cases hmem : k ∈ (commentKeys a ++ commentKeys b).dedup
  · rw [clookupL, commentsMerge, hfind, if_pos hmem]
    rfl
  · rw [clookupL, commentsMerge, hfind, if_neg hmem]
    rw [List.mem_dedup, List.mem_append] at hmem
    push_neg at hmem
    rw [clookupL_eq_nil_of_not_mem hmem.1, clookupL_eq_nil_of_not_mem hmem.2]
    rfl

/-- `sameKeySet` is exactly key-set equality. -/
theorem sameKeySet_iff {a b : Counter} :
    sameKeySet a b = true ↔ ∀ k, k ∈ ckeys a ↔ k ∈ ckeys b := by
  rw [sameKeySet, Bool.and_eq_true, List.all_eq_true, List.all_eq_true]
  constructor
  · rintro ⟨h1, h2⟩ k
    constructor
    · intro hk
      exact List.elem_iff.mp (h1 k hk)
    · intro hk
      exact List.elem_iff.mp (h2 k hk)
  · intro h
    constructor
    · intro k hk
      exact List.elem_iff.mpr ((h k).mp hk)
    · intro k hk
      exact List.elem_iff.mpr ((h k).mpr hk)

/-- The default denominators `{key: 1 for key in scores}` have exactly the
score keys, each mapped to 1. -/
theorem ckeys_default_denoms (sc : Counter) :
    ckeys ((ckeys sc).map (fun k => (k, (1 : Int)))) = ckeys sc := by
  rw [ckeys, List.map_map]
  have hcomp : (Prod.fst ∘ fun k => (k, (1 : Int))) = (id : String → String) := by
    funext x
    rfl
  rw [hcomp, List.map_id]
  exact List.dedup_eq_self.mpr (by rw [ckeys]; exact List.nodup_dedup _)

theorem clookup_default_denoms (sc : Counter) {k : String}
    (h : k ∈ ckeys sc) :
    clookup ((ckeys sc).map (fun k => (k, (1 : Int)))) k = 1 := by
  rw [clookup, find?_map_keys, if_pos h]
  rfl

/-- `Eval.make` with omitted denominators always succeeds, with a
denominator of exactly 1 on every score key. -/
theorem Eval.make_none_denoms (com : CommentsMap) (sc : Counter) :
    Eval.make com (some sc) none =
      Except.ok ⟨com, sc, (ckeys sc).map (fun k => (k, (1 : Int)))⟩ := by
  rw [Eval.make]
  have hsame : sameKeySet sc ((ckeys sc).map (fun k => (k, (1 : Int)))) = true := by
    rw [sameKeySet_iff]
    intro k
    rw [ckeys_default_denoms]
  simp [hsame]

/-- `Eval.make` with explicit denominators: succeeds exactly when the key
sets agree, and then returns the fields unchanged. -/
theorem Eval.make_some_denoms (com : CommentsMap) (sc dn : Counter) :
    Eval.make com (some sc) (some dn) =
      (if sameKeySet sc dn then Except.ok ⟨com, sc, dn⟩
       else Except.error "KeyMismatch") := by
  rfl

/-! ## Eval merge, simulator and compression support lemmas -/

/-- On well-formed Evals, `+` succeeds and returns the merged fields, and
the result is well-formed again. -/
theorem Eval.add_ok_of_WF {e1 e2 : Eval} (h1 : EvalWF e1) (h2 : EvalWF e2) :
    Eval.add e1 e2 =
      Except.ok ⟨commentsMerge e1.comments e2.comments,
        counterAdd e1.scores e2.scores, counterAdd e1.denoms e2.denoms⟩ ∧
    EvalWF ⟨commentsMerge e1.comments e2.comments,
      counterAdd e1.scores e2.scores, counterAdd e1.denoms e2.denoms⟩ := by
  obtain ⟨hp1, hq1, hk1⟩ := h1
  obtain ⟨hp2, hq2, hk2⟩ := h2
  rw [sameKeySet_iff] at hk1 hk2
  have hsame : ∀ k, k ∈ ckeys (counterAdd e1.scores e2.scores) ↔
      k ∈ ckeys (counterAdd e1.denoms e2.denoms) := by
    intro k
    rw [mem_ckeys_counterAdd_of_cPos hp1 hp2,
      mem_ckeys_counterAdd_of_cPos hq1 hq2, hk1 k, hk2 k]
  refine ⟨?_, cPos_counterAdd hp1 hp2, cPos_counterAdd hq1 hq2,
    sameKeySet_iff.mpr hsame⟩
  rw [Eval.add, Eval.make_some_denoms, if_pos (sameKeySet_iff.mpr hsame)]

/-- Whatever `+` returns passed the constructor's key-set check. -/
theorem Eval.add_ok_inv {e1 e2 r : Eval} (h : Eval.add e1 e2 = Except.ok r) :
    sameKeySet r.scores r.denoms = true := by
  rw [Eval.add, Eval.make_some_denoms] at h
  by_cases hs : sameKeySet (counterAdd e1.scores e2.scores)
      (counterAdd e1.denoms e2.denoms) = true
  · rw [if_pos hs] at h
    injection h with h2
    rw [← h2]
    exact hs
  · rw [if_neg hs] at h
    exact absurd h (by simp)

/-- The response loop appends exactly `n` turns after the dialogue it is
given. -/
theorem simLoop_shape (n : Nat) : ∀ (a b : SimAgent) (d : Dialogue),
    ∃ t : Dialogue, simLoop n a b d = d ++ t ∧ t.length = n := by
  induction n with
  | zero =>
    intro a b d
    exact ⟨[], by simp [simLoop], rfl⟩
  | succ k ih =>
    intro a b d
    obtain ⟨t, ht, hl⟩ := ih b a (a.respond d)
    refine ⟨⟨a.name, a.reply d⟩ :: t, ?_, by simp [hl]⟩
    rw [simLoop, ht, SimAgent.respond, Dialogue.addTurn]
    simp

/-- When no two user messages are adjacent, the compression pass reduces
to wrapping each user message on its own: a run of length one is still
rewritten. -/
theorem compressAux_none_no_consec (ms : List Msg)
    (h : noConsecUsers ms = true) :
    compressAux none ms = ms.map (fun m =>
      if m.role = "user" then
        { role := "user", content := wrapTriple m.content }
      else m) := by
  induction ms with
  | nil => rfl
  | cons m rest ih =>
    by_cases hu : m.role = "user"
    · cases rest with
      | nil => simp [compressAux, hu]
      | cons b r =>
        have h' := h
        simp only [noConsecUsers, Bool.and_eq_true] at h'
        have hb : ¬ b.role = "user" := by
          intro hbu
          have hone := h'.1
          rw [hu, hbu] at hone
          simp at hone
        have hrest : noConsecUsers (b :: r) = true := h'.2
        have ihr := ih hrest
        have htail : compressAux none r = r.map (fun m =>
            if m.role = "user" then
              { role := "user", content := wrapTriple m.content }
            else m) := by
          rw [show compressAux none (b :: r) =
              b :: compressAux none r by simp [compressAux, hb]] at ihr
          rw [List.map_cons, if_neg hb] at ihr
          injection ihr
        simp [compressAux, hu, hb, htail]
    · have hrest : noConsecUsers rest = true := by
        cases rest with
        | nil => rfl
        | cons b r =>
          simp only [noConsecUsers, Bool.and_eq_true] at h
          exact h.2
      simp [compressAux, hu, ih hrest]

/-- On positive counters, `Counter` addition is associative as a mapping. -/
theorem counterAdd_assoc_of_cPos {a b c : Counter} (ha : cPos a)
    (hb : cPos b) (hc : cPos c) :
    counterMapEq (counterAdd (counterAdd a b) c)
      (counterAdd a (counterAdd b c)) := by
  constructor
  · intro k
    rw [mem_ckeys_counterAdd_of_cPos (cPos_counterAdd ha hb) hc,
      mem_ckeys_counterAdd_of_cPos ha hb,
      mem_ckeys_counterAdd_of_cPos ha (cPos_counterAdd hb hc),
      mem_ckeys_counterAdd_of_cPos hb hc, or_assoc]
  · intro k
    rw [clookup_counterAdd_of_cPos (cPos_counterAdd ha hb) hc,
      clookup_counterAdd_of_cPos ha hb,
      clookup_counterAdd_of_cPos ha (cPos_counterAdd hb hc),
      clookup_counterAdd_of_cPos hb hc, add_assoc]

/-- On positive counters, `(a + b) + c` and `b + (a + c)` agree as
mappings (the commutativity half of the claim). -/
theorem counterAdd_comm13_of_cPos {a b c : Counter} (ha : cPos a)
    (hb : cPos b) (hc : cPos c) :
    counterMapEq (counterAdd (counterAdd a b) c)
      (counterAdd b (counterAdd a c)) := by
  constructor
  · intro k
    rw [mem_ckeys_counterAdd_of_cPos (cPos_counterAdd ha hb) hc,
      mem_ckeys_counterAdd_of_cPos ha hb,
      mem_ckeys_counterAdd_of_cPos hb (cPos_counterAdd ha hc),
      mem_ckeys_counterAdd_of_cPos ha hc]
    tauto
  · intro k
    rw [clookup_counterAdd_of_cPos (cPos_counterAdd ha hb) hc,
      clookup_counterAdd_of_cPos ha hb,
      clookup_counterAdd_of_cPos hb (cPos_counterAdd ha hc),
      clookup_counterAdd_of_cPos ha hc]
    omega

/-- Comment lists merge associatively: per key the same list results. -/
theorem commentsMerge_assoc_lookup (c1 c2 c3 : CommentsMap) (k : String) :
    clookupL (commentsMerge (commentsMerge c1 c2) c3) k =
      clookupL (commentsMerge c1 (commentsMerge c2 c3)) k := by
  rw [clookupL_commentsMerge, clookupL_commentsMerge,
    clookupL_commentsMerge, clookupL_commentsMerge, List.append_assoc]

/-- Reordering the merge only permutes each key's comment list. -/
theorem commentsMerge_comm13_perm (c1 c2 c3 : CommentsMap) (k : String) :
    (clookupL (commentsMerge (commentsMerge c1 c2) c3) k).Perm
      (clookupL (commentsMerge c2 (commentsMerge c1 c3)) k) := by
  rw [clookupL_commentsMerge, clookupL_commentsMerge,
    clookupL_commentsMerge, clookupL_commentsMerge]
  have hp : ((clookupL c1 k ++ clookupL c2 k) ++ clookupL c3 k).Perm
      ((clookupL c2 k ++ clookupL c1 k) ++ clookupL c3 k) :=
    List.Perm.append_right _ List.perm_append_comm
  have heq : (clookupL c2 k ++ clookupL c1 k) ++ clookupL c3 k =
      clookupL c2 k ++ (clookupL c1 k ++ clookupL c3 k) :=
    List.append_assoc _ _ _
  exact heq ▸ hp

/-! ## Claim theorems -/

/-- C2: the claim fails on the code.  With speaker-name marking on,
`format_as_messages` reads `turn['role']` from turn dicts that carry only
`speaker` and `content` keys, so it raises KeyError on the first turn
instead of producing content prefixed with the originating speaker's
name. -/
theorem C2_speaker_names_keyerror :
    format_as_messages [⟨"Alice", "hi"⟩] "Bob" none none (some true)
      (some false) none none = Except.error "KeyError: role" := rfl

/-- C5: an absent starter capability is silently skipped and the full
budget of 2 turns is produced, but an empty starter list makes
`random.choice([])` raise IndexError, which the
`except (AttributeError, TypeError, ValueError)` clause does not catch, so
the simulation aborts instead of skipping the starter step. -/
theorem C5_empty_starter_list_crashes :
    simulated_dialogue 0 ⟨"A", none, fun _ => "ra"⟩
      ⟨"B", some [], fun _ => "rb"⟩ 2 [] true =
      Except.error PyErr.indexError ∧
    simulated_dialogue 0 ⟨"A", none, fun _ => "ra"⟩
      ⟨"B", none, fun _ => "rb"⟩ 2 [] true =
      Except.ok [⟨"A", "ra"⟩, ⟨"B", "rb"⟩] := ⟨rfl, rfl⟩

/-- C7: the `eval_by_participant` precondition raises exactly when the
participant's name and the other name do not both occur among the
dialogue's speakers (in particular when neither occurs). -/
theorem C7_guard_iff (name other : String) (d : Dialogue) :
    (∃ msg, eval_by_participant_guard name other d = Except.error msg) ↔
      ¬(name ∈ speakersOf d ∧ other ∈ speakersOf d) := by
  rw [eval_by_participant_guard]
  by_cases h : name ∈ speakersOf d ∧ other ∈ speakersOf d
  · simp [h]
  · simp [h]

/-- Witness for C7: a dialogue containing neither name makes the guard
raise. -/
theorem C7_guard_iff_witness :
    ∃ msg, eval_by_participant_guard "Alice" "Bob" [⟨"Carol", "x"⟩] =
      Except.error msg :=
  (C7_guard_iff "Alice" "Bob" [⟨"Carol", "x"⟩]).mpr (by decide)

/-- C9: the threshold variant queries the claims service in exactly the
fallback order of the source: user turns with threshold 8 first; then —
only when that came back empty and the dialogue has more than one turn —
bot turns with threshold 8; then, when still empty, user turns with no
threshold. -/
theorem C9_fallback_order (name : String) (k : Kialo) (d : Dialogue) :
    (k.closestClaims (akikiUserQuery name d) 3 "has_cons" (some 8) ≠ [] →
      akikiNeighbors name k d =
        k.closestClaims (akikiUserQuery name d) 3 "has_cons" (some 8)) ∧
    (k.closestClaims (akikiUserQuery name d) 3 "has_cons" (some 8) = [] →
      d.length > 1 →
      k.closestClaims (akikiBotQuery name d) 3 "has_pros" (some 8) ≠ [] →
      akikiNeighbors name k d =
        k.closestClaims (akikiBotQuery name d) 3 "has_pros" (some 8)) ∧
    (k.closestClaims (akikiUserQuery name d) 3 "has_cons" (some 8) = [] →
      (d.length ≤ 1 ∨
        k.closestClaims (akikiBotQuery name d) 3 "has_pros" (some 8) = []) →
      akikiNeighbors name k d =
        k.closestClaims (akikiUserQuery name d) 3 "has_cons" none) := by
  refine ⟨?_, ?_, ?_⟩
  · intro h1
    have hlen : ¬ (k.closestClaims (akikiUserQuery name d) 3 "has_cons"
        (some 8)).length = 0 := by
      simpa [List.length_eq_zero] using h1
    simp only [akikiNeighbors]
    have e1 : (if (k.closestClaims (akikiUserQuery name d) 3 "has_cons"
          (some 8)).length = 0 ∧ d.length > 1 then
        k.closestClaims (akikiBotQuery name d) 3 "has_pros" (some 8)
      else k.closestClaims (akikiUserQuery name d) 3 "has_cons" (some 8)) =
        k.closestClaims (akikiUserQuery name d) 3 "has_cons" (some 8) :=
      if_neg (fun hc => hlen hc.1)
    rw [e1, if_neg hlen]
  · intro h1 hd h2
    have hlen2 : ¬ (k.closestClaims (akikiBotQuery name d) 3 "has_pros"
        (some 8)).length = 0 := by
      simpa [List.length_eq_zero] using h2
    simp only [akikiNeighbors]
    have e1 : (if (k.closestClaims (akikiUserQuery name d) 3 "has_cons"
          (some 8)).length = 0 ∧ d.length > 1 then
        k.closestClaims (akikiBotQuery name d) 3 "has_pros" (some 8)
      else k.closestClaims (akikiUserQuery name d) 3 "has_cons" (some 8)) =
        k.closestClaims (akikiBotQuery name d) 3 "has_pros" (some 8) :=
      if_pos ⟨by simp [h1], hd⟩
    rw [e1, if_neg hlen2]
  · intro h1 hcase
    simp only [akikiNeighbors]
    by_cases hd : d.length > 1
    · have h2 : k.closestClaims (akikiBotQuery name d) 3 "has_pros"
          (some 8) = [] := by
        rcases hcase with hle | h2
        · exact absurd hd (by omega)
        · exact h2
      have e1 : (if (k.closestClaims (akikiUserQuery name d) 3 "has_cons"
            (some 8)).length = 0 ∧ d.length > 1 then
          k.closestClaims (akikiBotQuery name d) 3 "has_pros" (some 8)
        else k.closestClaims (akikiUserQuery name d) 3 "has_cons" (some 8)) =
          k.closestClaims (akikiBotQuery name d) 3 "has_pros" (some 8) :=
        if_pos ⟨by simp [h1], hd⟩
      rw [e1, if_pos (by simp [h2])]
    · have e1 : (if (k.closestClaims (akikiUserQuery name d) 3 "has_cons"
            (some 8)).length = 0 ∧ d.length > 1 then
          k.closestClaims (akikiBotQuery name d) 3 "has_pros" (some 8)
        else k.closestClaims (akikiUserQuery name d) 3 "has_cons" (some 8)) =
          k.closestClaims (akikiUserQuery name d) 3 "has_cons" (some 8) :=
        if_neg (fun hc => hd hc.2)
      rw [e1, if_pos (by simp [h1])]

/-- Witness for C9: each of the three fallback outcomes is realized by a
concrete claims-service oracle. -/
theorem C9_fallback_order_witness :
    akikiNeighbors "A"
      ⟨fun _ _ kind th => if kind = "has_cons" ∧ th = some 8 then ["u"] else [],
        fun _ => [], fun _ => [], []⟩ [⟨"H", "hi"⟩] = ["u"] ∧
    akikiNeighbors "A"
      ⟨fun _ _ kind _ => if kind = "has_pros" then ["b"] else [],
        fun _ => [], fun _ => [], []⟩ [⟨"H", "hi"⟩, ⟨"A", "yo"⟩] = ["b"] ∧
    akikiNeighbors "A"
      ⟨fun _ _ _ th => if th = none then ["nt"] else [],
        fun _ => [], fun _ => [], []⟩ [⟨"H", "hi"⟩] = ["nt"] :=
  ⟨(C9_fallback_order "A" _ _).1 (by decide),
   (C9_fallback_order "A" _ _).2.1 rfl (by decide) (by decide),
   (C9_fallback_order "A" _ _).2.2 rfl (Or.inl (by decide))⟩

/-- C10: with compression enabled, every maximal run of consecutive user
messages is rewritten into one triple-quote-wrapped user message even
when the run has length one: when no two user messages are adjacent the
pass wraps each user message individually, and concretely a two-speaker
dialogue with `compress = true` gets its lone user message's content
altered although nothing is merged. -/
theorem C10_singleton_runs_wrapped :
    (∀ ms : List Msg, noConsecUsers ms = true →
      compressRun ms = ms.map (fun m =>
        if m.role = "user" then
          { role := "user", content := wrapTriple m.content }
        else m)) ∧
    format_as_messages [⟨"Alice", "hi"⟩] "Bob" none none none (some true)
      none none =
      Except.ok [{ role := "user", content := wrapTriple "hi" }] ∧
    wrapTriple "hi" ≠ "hi" :=
  ⟨fun ms h => compressAux_none_no_consec ms h, rfl, by decide⟩

/-- Witness for C10: a lone user message is wrapped by the compression
pass. -/
theorem C10_singleton_runs_wrapped_witness :
    compressRun [{ role := "user", content := "x" }] =
      [{ role := "user", content := wrapTriple "x" }] :=
  (C10_singleton_runs_wrapped.1 [{ role := "user", content := "x" }]
    rfl).trans (by decide)

/-- C3 counterexample: the key-set invariant is not maintained by `+=`.
An Eval with a stored score of 0 is constructible (with default
denominator 1); adding it to itself in place drops the key from scores
(Python `Counter` addition keeps only positive counts) while the
denominators keep it, so the two key sets then differ. -/
theorem C3_counterexample :
    Eval.make [] (some [("a", (0 : Int))]) none =
      Except.ok ⟨[], [("a", 0)], [("a", 1)]⟩ ∧
    (Eval.iadd ⟨[], [("a", 0)], [("a", 1)]⟩
      ⟨[], [("a", 0)], [("a", 1)]⟩).scores = [] ∧
    (Eval.iadd ⟨[], [("a", 0)], [("a", 1)]⟩
      ⟨[], [("a", 0)], [("a", 1)]⟩).denoms = [("a", 2)] ∧
    ¬("a" ∈ ckeys (Eval.iadd ⟨[], [("a", 0)], [("a", 1)]⟩
        ⟨[], [("a", 0)], [("a", 1)]⟩).scores ↔
      "a" ∈ ckeys (Eval.iadd ⟨[], [("a", 0)], [("a", 1)]⟩
        ⟨[], [("a", 0)], [("a", 1)]⟩).denoms) :=
  ⟨rfl, rfl, rfl, by decide⟩

/-- C3 amended: construction with mismatched score/denominator key sets
fails with the KeyMismatch error; with denominators omitted every score
key gets denominator 1 and the key sets agree; every Eval returned by `+`
satisfies the key-set invariant (the constructor re-checks it); and `+=`
preserves the invariant provided all stored scores and denominators are
strictly positive. -/
theorem C3_amended :
    (∀ com sc dn, Eval.make com (some sc) (some dn) =
        Except.error "KeyMismatch" ↔ ¬∀ k, k ∈ ckeys sc ↔ k ∈ ckeys dn) ∧
    (∀ com sc e, Eval.make com (some sc) none = Except.ok e →
      (∀ k, k ∈ ckeys e.scores ↔ k ∈ ckeys e.denoms) ∧
      ∀ k ∈ ckeys e.scores, clookup e.denoms k = 1) ∧
    (∀ e1 e2 r, Eval.add e1 e2 = Except.ok r →
      ∀ k, k ∈ ckeys r.scores ↔ k ∈ ckeys r.denoms) ∧
    (∀ e1 e2 : Eval, cPos e1.scores → cPos e1.denoms → cPos e2.scores →
      cPos e2.denoms → sameKeySet e1.scores e1.denoms = true →
      sameKeySet e2.scores e2.denoms = true →
      ∀ k, k ∈ ckeys (Eval.iadd e1 e2).scores ↔
        k ∈ ckeys (Eval.iadd e1 e2).denoms) := by
  refine ⟨?_, ?_, ?_, ?_⟩
  · intro com sc dn
    rw [Eval.make_some_denoms]
    by_cases hs : sameKeySet sc dn = true
    · rw [if_pos hs]
      constructor
      · intro h
        exact absurd h (by simp)
      · intro hn
        exact absurd (sameKeySet_iff.mp hs) hn
    · rw [if_neg hs]
      constructor
      · intro _ hall
        exact hs (sameKeySet_iff.mpr hall)
      · intro _
        rfl
  · intro com sc e h
    rw [Eval.make_none_denoms] at h
    injection h with h2
    rw [← h2]
    refine ⟨fun k => ?_, fun k hk => clookup_default_denoms sc hk⟩
    show k ∈ ckeys sc ↔ k ∈ ckeys ((ckeys sc).map (fun k => (k, (1 : Int))))
    rw [ckeys_default_denoms]
  · intro e1 e2 r h
    exact sameKeySet_iff.mp (Eval.add_ok_inv h)
  · intro e1 e2 hp1 hq1 hp2 hq2 hk1 hk2 k
    rw [sameKeySet_iff] at hk1 hk2
    show k ∈ ckeys (counterAdd e1.scores e2.scores) ↔
      k ∈ ckeys (counterAdd e1.denoms e2.denoms)
    rw [mem_ckeys_counterAdd_of_cPos hp1 hp2,
      mem_ckeys_counterAdd_of_cPos hq1 hq2, hk1 k, hk2 k]

/-- Witness for C3: each amended conjunct applied at concrete inputs. -/
theorem C3_amended_witness :
    Eval.make [] (some [("a", (1 : Int))]) (some [("b", (1 : Int))]) =
      Except.error "KeyMismatch" ∧
    clookup ([("a", (1 : Int))] : Counter) "a" = 1 ∧
    ("b" ∈ ckeys (⟨[], [("a", 1), ("b", 2)], [("a", 1), ("b", 3)]⟩ :
        Eval).scores ↔
      "b" ∈ ckeys (⟨[], [("a", 1), ("b", 2)], [("a", 1), ("b", 3)]⟩ :
        Eval).denoms) ∧
    ("a" ∈ ckeys (Eval.iadd ⟨[], [("a", (1 : Int))], [("a", (1 : Int))]⟩
        ⟨[], [("b", (2 : Int))], [("b", (3 : Int))]⟩).scores ↔
      "a" ∈ ckeys (Eval.iadd ⟨[], [("a", (1 : Int))], [("a", (1 : Int))]⟩
        ⟨[], [("b", (2 : Int))], [("b", (3 : Int))]⟩).denoms) :=
  ⟨(C3_amended.1 [] [("a", 1)] [("b", 1)]).mpr
      (fun hall => absurd ((hall "a").mp (by decide)) (by decide)),
    (C3_amended.2.1 [] [("a", 2)] ⟨[], [("a", 2)], [("a", 1)]⟩ rfl).2 "a"
      (by decide),
    (C3_amended.2.2.1 ⟨[], [("a", 1)], [("a", 1)]⟩
      ⟨[], [("b", 2)], [("b", 3)]⟩
      ⟨[], [("a", 1), ("b", 2)], [("a", 1), ("b", 3)]⟩ rfl) "b",
    C3_amended.2.2.2 ⟨[], [("a", 1)], [("a", 1)]⟩
      ⟨[], [("b", 2)], [("b", 3)]⟩ (by decide) (by decide) (by decide)
      (by decide) (by decide) (by decide) "a"⟩

/-- C6 counterexample: an Eval with an explicit zero denominator on a
score key is constructible (the constructor only compares key sets), so
"every key present in scores always has denominator at least 1" fails and
`mean` raises ZeroDivisionError there; moreover a criterion literally
named TOTAL is overwritten by the synthetic total, so its entry is not
`scores[k]/denoms[k]` (3/1 = 3, but the mapping holds 4). -/
theorem C6_counterexample :
    Eval.make [] (some [("a", (1 : Int))]) (some [("a", (0 : Int))]) =
      Except.ok ⟨[], [("a", 1)], [("a", 0)]⟩ ∧
    clookup (⟨[], [("a", 1)], [("a", 0)]⟩ : Eval).denoms "a" = 0 ∧
    Eval.mean ⟨[], [("a", 1)], [("a", 0)]⟩ =
      Except.error "ZeroDivisionError" ∧
    Eval.make [] (some [("TOTAL", (3 : Int)), ("a", (1 : Int))]) none =
      Except.ok ⟨[], [("TOTAL", 3), ("a", 1)], [("TOTAL", 1), ("a", 1)]⟩ ∧
    (Eval.mean ⟨[], [("TOTAL", 3), ("a", 1)],
        [("TOTAL", 1), ("a", 1)]⟩).map (fun m => m.map Prod.fst) =
      Except.ok ["TOTAL", "a"] ∧
    (Eval.mean ⟨[], [("TOTAL", 3), ("a", 1)],
        [("TOTAL", 1), ("a", 1)]⟩).map (fun m => rlookup m "TOTAL") =
      Except.ok (((3 : Int) : Rat) / ((1 : Int) : Rat) +
        (((1 : Int) : Rat) / ((1 : Int) : Rat) + 0)) ∧
    ((3 : Int) : Rat) / ((1 : Int) : Rat) +
        (((1 : Int) : Rat) / ((1 : Int) : Rat) + 0) = 4 ∧
    ((clookup [("TOTAL", (3 : Int)), ("a", (1 : Int))] "TOTAL" : Rat) /
      (clookup [("TOTAL", (1 : Int)), ("a", (1 : Int))] "TOTAL" : Rat) = 3) ∧
    ((4 : Rat) ≠ 3) :=
  ⟨rfl, rfl, rfl, rfl, rfl, rfl, by norm_num,
    by show ((3 : Int) : Rat) / ((1 : Int) : Rat) = 3; norm_num,
    by norm_num⟩

/-- C6 amended: when every score key has a nonzero denominator and no
criterion is itself named TOTAL, `mean` returns the mapping carrying
`scores[k]/denoms[k]` for each score key plus a synthetic TOTAL equal to
the sum of the per-criterion means; and every Eval constructed with
omitted denominators has denominator 1 (hence at least 1) on every score
key. -/
theorem C6_amended :
    (∀ e : Eval, (∀ k ∈ ckeys e.scores, clookup e.denoms k ≠ 0) →
      "TOTAL" ∉ ckeys e.scores →
      ∃ m, Eval.mean e = Except.ok m ∧
        (∀ k ∈ ckeys e.scores, rlookup m k =
          (clookup e.scores k : Rat) / (clookup e.denoms k : Rat)) ∧
        rlookup m "TOTAL" = ((ckeys e.scores).map (fun k =>
          (clookup e.scores k : Rat) / (clookup e.denoms k : Rat))).sum) ∧
    (∀ com sc e, Eval.make com (some sc) none = Except.ok e →
      ∀ k ∈ ckeys e.scores, 1 ≤ clookup e.denoms k) := by
  constructor
  · intro e hden hT
    rw [Eval.mean]
    rw [if_pos (List.all_eq_true.mpr (fun k hk => by
      simpa using hden k hk))]
    rw [if_neg (fun hc => hT (List.elem_iff.mp hc))]
    refine ⟨_, rfl, ?_, ?_⟩
    · intro k hk
      rw [rlookup, List.find?_append, find?_map_keys, if_pos hk]
      rfl
    · rw [rlookup, List.find?_append, find?_map_keys, if_neg hT]
      simp [List.map_map]
      rfl
  · intro com sc e h
    rw [Eval.make_none_denoms] at h
    injection h with h2
    rw [← h2]
    intro k hk
    rw [clookup_default_denoms sc hk]

/-- Witness for C6: the amended mean characterization at a concrete Eval
with two criteria, and the default denominator at a concrete
construction. -/
theorem C6_amended_witness :
    (∃ m, Eval.mean ⟨[], [("a", 3), ("b", 1)], [("a", 2), ("b", 1)]⟩ =
        Except.ok m ∧
      (∀ k ∈ ckeys (⟨[], [("a", 3), ("b", 1)],
          [("a", 2), ("b", 1)]⟩ : Eval).scores,
        rlookup m k =
          (clookup (⟨[], [("a", 3), ("b", 1)],
            [("a", 2), ("b", 1)]⟩ : Eval).scores k : Rat) /
          (clookup (⟨[], [("a", 3), ("b", 1)],
            [("a", 2), ("b", 1)]⟩ : Eval).denoms k : Rat)) ∧
      rlookup m "TOTAL" =
        ((ckeys (⟨[], [("a", 3), ("b", 1)],
            [("a", 2), ("b", 1)]⟩ : Eval).scores).map (fun k =>
          (clookup (⟨[], [("a", 3), ("b", 1)],
            [("a", 2), ("b", 1)]⟩ : Eval).scores k : Rat) /
          (clookup (⟨[], [("a", 3), ("b", 1)],
            [("a", 2), ("b", 1)]⟩ : Eval).denoms k : Rat))).sum) ∧
    1 ≤ clookup (⟨[], [("a", 2)], [("a", 1)]⟩ : Eval).denoms "a" :=
  ⟨C6_amended.1 ⟨[], [("a", 3), ("b", 1)], [("a", 2), ("b", 1)]⟩
      (by decide) (by decide),
    C6_amended.2 [] [("a", 2)] ⟨[], [("a", 2)], [("a", 1)]⟩ rfl "a"
      (by decide)⟩

/-- C1 counterexample: merge is not associative on all constructible
Evals.  With stored score/denominator value -1 (accepted by the
constructor, whose only check is key-set equality), `Counter` addition
drops the key when the sum is non-positive, and the two groupings of the
same three Evals merge to different score mappings (3 versus 1 at key
"k"). -/
theorem C1_counterexample :
    Eval.make [] (some [("k", (-1 : Int))]) (some [("k", (-1 : Int))]) =
      Except.ok ⟨[], [("k", -1)], [("k", -1)]⟩ ∧
    Eval.make [] (some [("k", (3 : Int))]) (some [("k", (3 : Int))]) =
      Except.ok ⟨[], [("k", 3)], [("k", 3)]⟩ ∧
    Eval.add ⟨[], [("k", -1)], [("k", -1)]⟩ ⟨[], [("k", -1)], [("k", -1)]⟩ =
      Except.ok ⟨[], [], []⟩ ∧
    Eval.add ⟨[], [], []⟩ ⟨[], [("k", 3)], [("k", 3)]⟩ =
      Except.ok ⟨[], [("k", 3)], [("k", 3)]⟩ ∧
    Eval.add ⟨[], [("k", -1)], [("k", -1)]⟩ ⟨[], [("k", 3)], [("k", 3)]⟩ =
      Except.ok ⟨[], [("k", 2)], [("k", 2)]⟩ ∧
    Eval.add ⟨[], [("k", -1)], [("k", -1)]⟩ ⟨[], [("k", 2)], [("k", 2)]⟩ =
      Except.ok ⟨[], [("k", 1)], [("k", 1)]⟩ ∧
    clookup ([("k", (3 : Int))] : Counter) "k" ≠
      clookup ([("k", (1 : Int))] : Counter) "k" :=
  ⟨rfl, rfl, rfl, rfl, rfl, rfl, by decide⟩

/-- C1 amended: on well-formed Evals — all stored scores and denominators
strictly positive (as the rating pipeline produces) and score/denominator
key sets equal — every grouping succeeds, `(e1+e2)+e3`, `e1+(e2+e3)` and
`e2+(e1+e3)` have identical score and denominator mappings, and per key
the comment lists agree up to permutation (identically for the two
associativity groupings). -/
theorem C1_amended (e1 e2 e3 : Eval) (h1 : EvalWF e1) (h2 : EvalWF e2)
    (h3 : EvalWF e3) :
    ∃ p A q B r C,
      Eval.add e1 e2 = Except.ok p ∧ Eval.add p e3 = Except.ok A ∧
      Eval.add e2 e3 = Except.ok q ∧ Eval.add e1 q = Except.ok B ∧
      Eval.add e1 e3 = Except.ok r ∧ Eval.add e2 r = Except.ok C ∧
      counterMapEq A.scores B.scores ∧ counterMapEq A.denoms B.denoms ∧
      counterMapEq A.scores C.scores ∧ counterMapEq A.denoms C.denoms ∧
      (∀ k, clookupL A.comments k = clookupL B.comments k) ∧
      (∀ k, (clookupL A.comments k).Perm (clookupL C.comments k)) := by
  obtain ⟨h12, w12⟩ := Eval.add_ok_of_WF h1 h2
  obtain ⟨h12_3, _⟩ := Eval.add_ok_of_WF w12 h3
  obtain ⟨h23, w23⟩ := Eval.add_ok_of_WF h2 h3
  obtain ⟨h1_23, _⟩ := Eval.add_ok_of_WF h1 w23
  obtain ⟨h13, w13⟩ := Eval.add_ok_of_WF h1 h3
  obtain ⟨h2_13, _⟩ := Eval.add_ok_of_WF h2 w13
  obtain ⟨hp1, hq1, -⟩ := h1
  obtain ⟨hp2, hq2, -⟩ := h2
  obtain ⟨hp3, hq3, -⟩ := h3
  refine ⟨_, _, _, _, _, _, h12, h12_3, h23, h1_23, h13, h2_13,
    counterAdd_assoc_of_cPos hp1 hp2 hp3,
    counterAdd_assoc_of_cPos hq1 hq2 hq3,
    counterAdd_comm13_of_cPos hp1 hp2 hp3,
    counterAdd_comm13_of_cPos hq1 hq2 hq3,
    fun k => commentsMerge_assoc_lookup e1.comments e2.comments
      e3.comments k,
    fun k => commentsMerge_comm13_perm e1.comments e2.comments
      e3.comments k⟩

/-- Witness for C1: three concrete well-formed Evals with comments and
overlapping keys. -/
theorem C1_amended_witness :
    ∃ p A q B r C,
      Eval.add ⟨[("q", [("E1", "c1")])], [("a", 1)], [("a", 1)]⟩
        ⟨[("q", [("E2", "c2")])], [("a", 2), ("b", 1)],
          [("a", 1), ("b", 1)]⟩ = Except.ok p ∧
      Eval.add p ⟨[("r", [("E3", "c3")])], [("b", 4)], [("b", 2)]⟩ =
        Except.ok A ∧
      Eval.add ⟨[("q", [("E2", "c2")])], [("a", 2), ("b", 1)],
          [("a", 1), ("b", 1)]⟩
        ⟨[("r", [("E3", "c3")])], [("b", 4)], [("b", 2)]⟩ = Except.ok q ∧
      Eval.add ⟨[("q", [("E1", "c1")])], [("a", 1)], [("a", 1)]⟩ q =
        Except.ok B ∧
      Eval.add ⟨[("q", [("E1", "c1")])], [("a", 1)], [("a", 1)]⟩
        ⟨[("r", [("E3", "c3")])], [("b", 4)], [("b", 2)]⟩ = Except.ok r ∧
      Eval.add ⟨[("q", [("E2", "c2")])], [("a", 2), ("b", 1)],
          [("a", 1), ("b", 1)]⟩ r = Except.ok C ∧
      counterMapEq A.scores B.scores ∧ counterMapEq A.denoms B.denoms ∧
      counterMapEq A.scores C.scores ∧ counterMapEq A.denoms C.denoms ∧
      (∀ k, clookupL A.comments k = clookupL B.comments k) ∧
      (∀ k, (clookupL A.comments k).Perm (clookupL C.comments k)) :=
  C1_amended ⟨[("q", [("E1", "c1")])], [("a", 1)], [("a", 1)]⟩
    ⟨[("q", [("E2", "c2")])], [("a", 2), ("b", 1)], [("a", 1), ("b", 1)]⟩
    ⟨[("r", [("E3", "c3")])], [("b", 4)], [("b", 2)]⟩
    (by decide) (by decide) (by decide)

/-- C4 counterexample: the starter is injected without checking the turn
budget, so with `turn_count = 0` the resulting dialogue has 1 new turn,
not 0 — the claim fails for that turn count. -/
theorem C4_counterexample :
    simulated_dialogue 5 ⟨"A", none, fun _ => "ra"⟩
      ⟨"B", some ["X"], fun _ => "rb"⟩ 0 [] true =
      Except.ok [⟨"A", "X"⟩] ∧
    ([(⟨"A", "X"⟩ : Turn)] : Dialogue).length = 1 := ⟨rfl, rfl⟩

/-- C4 amended: for every `turn_count ≥ 1`, simulating with the starter
against a peer exposing the one-element starter list `[x]` yields a
dialogue extending the prefix by exactly `turn_count` new turns, the
first of which is the starter `x` attributed to the opening agent's
name. -/
theorem C4_amended (pick : Nat) (a b : SimAgent) (pre : Dialogue)
    (x : String) (tc : Int) (hb : b.starters = some [x]) (htc : 1 ≤ tc) :
    ∃ t : Dialogue, simulated_dialogue pick a b tc pre true =
        Except.ok (pre ++ t) ∧
      t.length = tc.toNat ∧ t.head? = some ⟨a.name, x⟩ := by
  obtain ⟨t0, ht0, hl0⟩ := simLoop_shape (tc - 1).toNat b a
    (pre.addTurn a.name x)
  refine ⟨⟨a.name, x⟩ :: t0, ?_, ?_, rfl⟩
  · simp only [simulated_dialogue, hb, List.isEmpty, List.length_singleton,
      Nat.mod_one]
    show Except.ok (simLoop (tc - 1).toNat b a (pre.addTurn a.name x)) =
      Except.ok (pre ++ ⟨a.name, x⟩ :: t0)
    rw [ht0]
    simp [Dialogue.addTurn]
  · simp only [List.length_cons, hl0]
    omega

/-- Witness for C4: two turns against a peer with starter list ["X"]. -/
theorem C4_amended_witness :
    ∃ t : Dialogue, simulated_dialogue 0 ⟨"A", none, fun _ => "ra"⟩
        ⟨"B", some ["X"], fun _ => "rb"⟩ 2 [] true =
        Except.ok ([] ++ t) ∧
      t.length = (2 : Int).toNat ∧ t.head? = some ⟨"A", "X"⟩ :=
  C4_amended 0 ⟨"A", none, fun _ => "ra"⟩ ⟨"B", some ["X"], fun _ => "rb"⟩
    [] "X" 2 rfl (by decide)

/-- C8: on a non-empty dialogue, an empty candidate set makes both
knowledge-lookup agents raise instead of returning a reply: the Kialo
agent fails its assertion, and the Akiki variant fails picking from the
empty candidate list; moreover an empty Akiki candidate set means even
the no-threshold fallback query came back empty. -/
theorem C8_empty_candidates (pick1 pick2 : Nat) (name : String) (k : Kialo)
    (d : Dialogue) (hd : d ≠ []) :
    (k.closestClaims (((d.getLast?).map (fun t => t.content)).getD "") 3
        "has_cons" none = [] →
      kialoAgentResponse pick1 pick2 k d =
        Except.error PyErr.assertionError) ∧
    (akikiNeighbors name k d = [] →
      akikiAgentResponse pick1 pick2 name k d =
        Except.error PyErr.indexError) ∧
    (akikiNeighbors name k d = [] →
      k.closestClaims (akikiUserQuery name d) 3 "has_cons" none = []) := by
  have hde : d.isEmpty = false := List.isEmpty_eq_false.mpr hd
  refine ⟨?_, ?_, ?_⟩
  · intro hq
    rw [kialoAgentResponse, if_neg (by simp [hde])]
    simp [hq]
  · intro hn
    rw [akikiAgentResponse, if_neg (by simp [hde])]
    simp [hn]
  · intro hn
    simp only [akikiNeighbors] at hn
    by_cases hz : (if (k.closestClaims (akikiUserQuery name d) 3 "has_cons"
          (some 8)).length = 0 ∧ d.length > 1 then
        k.closestClaims (akikiBotQuery name d) 3 "has_pros" (some 8)
      else k.closestClaims (akikiUserQuery name d) 3 "has_cons"
        (some 8)).length = 0
    · rw [if_pos hz] at hn
      exact hn
    · rw [if_neg hz] at hn
      exact absurd (by rw [hn]; rfl) hz

/-- Witness for C8: a claims oracle returning no candidates anywhere. -/
theorem C8_empty_candidates_witness :
    kialoAgentResponse 0 0 ⟨fun _ _ _ _ => [], fun _ => [], fun _ => [], []⟩
      [⟨"u", "hello"⟩] = Except.error PyErr.assertionError ∧
    akikiAgentResponse 0 0 "A"
      ⟨fun _ _ _ _ => [], fun _ => [], fun _ => [], []⟩
      [⟨"u", "hello"⟩] = Except.error PyErr.indexError :=
  ⟨(C8_empty_candidates 0 0 "A"
      ⟨fun _ _ _ _ => [], fun _ => [], fun _ => [], []⟩
      [⟨"u", "hello"⟩] (by decide)).1 rfl,
    (C8_empty_candidates 0 0 "A"
      ⟨fun _ _ _ _ => [], fun _ => [], fun _ => [], []⟩
      [⟨"u", "hello"⟩] (by decide)).2.1 rfl⟩

end NlpHw7
